import Mathlib

/-!
Verification of the motion-playback core of the hulk robot control stack:
the conditioned-spline playback state machine (`MotionInterpolator`), its
advance/value/reset contract, the stand-up behavior selector, and the
per-cycle executor for the stand-up-front motion.

Rust `std::time::Duration` is an exact integer count of nanoseconds, so
durations are modelled as natural numbers.  Rust vector indexing that can
panic is modelled with `Option` (a `none` result models a panic).
-/

namespace Hulk

/-- Durations as natural numbers (Rust Duration is an exact integer count
of nanoseconds; all operations used here are addition and comparison). -/
abbrev Duration := Nat

/-- Response of a condition evaluation (crate `motionfile`, `condition::Response`). -/
inductive Response
  | Abort
  | Wait
  | Continue
deriving DecidableEq, Repr

/-- Modelled from the spec: the Condition Evaluator is an external pure
function of the condition-input snapshot and the phase-local elapsed time,
returning Continue, Wait or Abort.  `CI` is the opaque condition-input type. -/
def Condition (CI : Type) : Type := CI → Duration → Response

/-- Evaluation of a condition (the external `ConditionType::evaluate`). -/
def Condition.evaluate (c : Condition CI) (condition_input : CI) (t : Duration) : Response :=
  c condition_input t

/-- Capability constraint on pose types (spec design note): supports linear
interpolation between two instances given a fraction, with the fraction-zero
endpoint law that makes it an interpolation. -/
class Interpolate (T : Type) where
  lerp : ℚ → T → T → T
  lerp_zero : ∀ a b : T, lerp 0 a b = a

instance : Interpolate ℚ where
  lerp f a b := a + f * (b - a)
  lerp_zero a b := by simp

/-- One keyframe of a motion phase: a pose and its arrival time. -/
structure Keyframe (T : Type) where
  positions : T
  time : Duration

/-- Modelled from the spec: the external Timed Curve (`TimedSpline`) holds a
start value and an ordered sequence of (value, arrival-time) keyframes; it
exposes total duration, value-at-elapsed-time, value-at-start, value-at-end,
and allows rewriting its start value. -/
structure TimedSpline (T : Type) where
  start_positions : T
  keyframes : List (Keyframe T)

/-- Modelled from the spec: total phase duration is the last keyframe's
arrival time (zero for an empty keyframe list).  The result type is spelled
`Nat` (the same type as `Duration`) so that arithmetic tactics see plain
natural-number comparisons. -/
def TimedSpline.total_duration (s : TimedSpline T) : Nat :=
  (s.keyframes.getLast?.map Keyframe.time).getD 0

/-- Modelled from the spec: value at the start of the curve. -/
def TimedSpline.start_position (s : TimedSpline T) : T :=
  s.start_positions

/-- Modelled from the spec: value at the end of the curve (the last
keyframe's pose, or the start pose if there are no keyframes). -/
def TimedSpline.end_position (s : TimedSpline T) : T :=
  (s.keyframes.getLast?.map Keyframe.positions).getD s.start_positions

/-- Piecewise-linear evaluation helper: walk the keyframes from the previous
anchor and interpolate inside the first segment whose arrival time is not yet
passed. -/
def valueAtFrom [Interpolate T] (t : Duration) : Keyframe T → List (Keyframe T) → T
  | prev, [] => prev.positions
  | prev, kf :: rest =>
    if t ≤ kf.time then
      Interpolate.lerp (((t : ℚ) - (prev.time : ℚ)) / ((kf.time : ℚ) - (prev.time : ℚ)))
        prev.positions kf.positions
    else valueAtFrom t kf rest

/-- Modelled from the spec: value of the curve at an elapsed time, linear
interpolation between the surrounding keyframes, clamped to the last pose
past the end. -/
def TimedSpline.value_at [Interpolate T] (s : TimedSpline T) (t : Duration) : T :=
  valueAtFrom t ⟨s.start_positions, 0⟩ s.keyframes

/-- Modelled from the spec: rewriting the curve's start value. -/
def TimedSpline.set_initial_positions (s : TimedSpline T) (position : T) : TimedSpline T :=
  { s with start_positions := position }

/-- One motion phase: optional entry condition, a timed curve, optional exit
condition (`ConditionedSpline` in `motion_interpolator.rs`). -/
structure ConditionedSpline (CI T : Type) where
  entry_condition : Option (Condition CI)
  spline : TimedSpline T
  exit_condition : Option (Condition CI)

/-- Which side of a phase demanded the abort (`Side` in `motion_interpolator.rs`). -/
inductive Side
  | Entry
  | Exit
deriving DecidableEq, Repr

/-- The playback cursor (`State` in `motion_interpolator.rs`). -/
inductive State
  | CheckEntry (current_frame_index : Nat) (time_since_start : Duration)
  | InterpolateSpline (current_frame_index : Nat) (time_since_start : Duration)
  | CheckExit (current_frame_index : Nat) (time_since_start : Duration)
  | Finished
  | Aborted (frame_side : Side) (from_frame_index : Nat)
deriving DecidableEq, Repr

/-- The playback state machine (`MotionInterpolator` in `motion_interpolator.rs`). -/
structure MotionInterpolator (CI T : Type) where
  frames : List (ConditionedSpline CI T)
  current_state : State

/-- One transition of the playback cursor (`MotionInterpolator::advance_by`).
A `none` result models the Rust panic on an out-of-bounds frame index. -/
def MotionInterpolator.advance_by (m : MotionInterpolator CI T) (time_step : Duration)
    (condition_input : CI) : Option (MotionInterpolator CI T) :=
  match m.current_state with
  | .CheckEntry current_frame_index time_since_start =>
    (m.frames[current_frame_index]?).map fun current_frame =>
      { m with current_state :=
          match current_frame.entry_condition.map (fun condition => condition.evaluate condition_input time_since_start) with
          | some Response.Abort => .Aborted .Entry current_frame_index
          | some Response.Wait => .CheckEntry current_frame_index (time_since_start + time_step)
          | _ => .InterpolateSpline current_frame_index 0 }
  | .InterpolateSpline current_frame_index time_since_start =>
    (m.frames[current_frame_index]?).map fun current_frame =>
      { m with current_state :=
          if time_since_start ≥ current_frame.spline.total_duration then
            .CheckExit current_frame_index 0
          else
            .InterpolateSpline current_frame_index (time_since_start + time_step) }
  | .CheckExit current_frame_index time_since_start =>
    (m.frames[current_frame_index]?).map fun current_frame =>
      { m with current_state :=
          match current_frame.exit_condition.map (fun condition => condition.evaluate condition_input time_since_start) with
          | some Response.Abort => .Aborted .Exit current_frame_index
          | some Response.Wait => .CheckExit current_frame_index (time_since_start + time_step)
          | _ =>
            if current_frame_index < m.frames.length - 1 then
              .CheckEntry (current_frame_index + 1) 0
            else
              .Finished }
  | .Finished => some m
  | .Aborted _ _ => some m

/-- `MotionInterpolator::is_finished`. -/
def MotionInterpolator.is_finished (m : MotionInterpolator CI T) : Bool :=
  match m.current_state with
  | .Finished => true
  | .Aborted _ _ => true
  | _ => false

/-- `MotionInterpolator::value`; `none` models the Rust panic on an
out-of-bounds frame index or `frames.last().unwrap()` on an empty frame list. -/
def MotionInterpolator.value [Interpolate T] (m : MotionInterpolator CI T) : Option T :=
  match m.current_state with
  | .CheckEntry current_frame_index _ =>
    (m.frames[current_frame_index]?).map fun f => f.spline.start_position
  | .InterpolateSpline current_frame_index time_since_start =>
    (m.frames[current_frame_index]?).map fun f => f.spline.value_at time_since_start
  | .CheckExit current_frame_index _ =>
    (m.frames[current_frame_index]?).map fun f => f.spline.end_position
  | .Finished => m.frames.getLast?.map fun f => f.spline.end_position
  | .Aborted .Entry from_frame_index =>
    (m.frames[from_frame_index]?).map fun f => f.spline.start_position
  | .Aborted .Exit from_frame_index =>
    (m.frames[from_frame_index]?).map fun f => f.spline.end_position

/-- `MotionInterpolator::reset`. -/
def MotionInterpolator.reset (m : MotionInterpolator CI T) : MotionInterpolator CI T :=
  { m with current_state := .CheckEntry 0 0 }

/-- `MotionInterpolator::set_initial_positions` (the spec's `seed_start_pose`):
rewrite the first phase's curve start value, if there is a first phase. -/
def MotionInterpolator.set_initial_positions (m : MotionInterpolator CI T) (position : T) :
    MotionInterpolator CI T :=
  match m.frames with
  | [] => m
  | keyframe :: rest =>
    { m with frames :=
        { keyframe with spline := keyframe.spline.set_initial_positions position } :: rest }

/-- Run a list of advance calls, each with its own time step and condition
input, threading the panic-modelling `Option`. -/
def advanceList (m : MotionInterpolator CI T) :
    List (Duration × CI) → Option (MotionInterpolator CI T)
  | [] => some m
  | (time_step, condition_input) :: rest =>
    (m.advance_by time_step condition_input).bind (advanceList · rest)

/-- Iterate `advance_by` a number of times with a fixed time step and
condition input. -/
def advanceN (m : MotionInterpolator CI T) (time_step : Duration) (condition_input : CI) :
    Nat → Option (MotionInterpolator CI T)
  | 0 => some m
  | n + 1 => (m.advance_by time_step condition_input).bind (advanceN · time_step condition_input n)

/-- An externally visible operation on the state machine: one `advance_by`
call or one `reset` call. -/
inductive Op (CI : Type)
  | advance (time_step : Duration) (condition_input : CI)
  | reset

/-- Run a list of operations, threading the panic-modelling `Option`. -/
def runOps (m : MotionInterpolator CI T) : List (Op CI) → Option (MotionInterpolator CI T)
  | [] => some m
  | op :: rest =>
    (match op with
     | .advance time_step condition_input => m.advance_by time_step condition_input
     | .reset => some m.reset).bind (runOps · rest)

/-- Every frame index carried by the cursor is strictly below `n`. -/
def State.indexOk (n : Nat) : State → Bool
  | .CheckEntry current_frame_index _ => decide (current_frame_index < n)
  | .InterpolateSpline current_frame_index _ => decide (current_frame_index < n)
  | .CheckExit current_frame_index _ => decide (current_frame_index < n)
  | .Finished => true
  | .Aborted _ from_frame_index => decide (from_frame_index < n)

/-- Modelled from the spec: the global interpolation mode of a motion file. -/
inductive InterpolationMode
  | Linear
  | Cubic

/-- Modelled from the spec: the error raised when a curve cannot be built
from its keyframes (`InterpolatorError` of the external `timed_spline`). -/
inductive InterpolatorError
  | invalidKeyframeTimes
deriving DecidableEq, Repr

/-- How a construction attempt fails: a Rust panic (`.unwrap()` on a missing
value) or an error value propagated to the caller with `?`. -/
inductive ConstructionFailure
  | panicked
  | propagated (e : InterpolatorError)
deriving DecidableEq, Repr

/-- Keyframe arrival times are strictly increasing from the given lower bound. -/
def strictlyLaterThan (t : Duration) : List (Keyframe T) → Bool
  | [] => true
  | kf :: rest => decide (t < kf.time) && strictlyLaterThan kf.time rest

/-- Modelled from the spec: keyframes form a valid curve when there is at
least one of them and their arrival times are strictly increasing and
positive (malformed keyframe times make the curve unbuildable). -/
def validKeyframes (kfs : List (Keyframe T)) : Bool :=
  !kfs.isEmpty && strictlyLaterThan 0 kfs

/-- Modelled from the spec: `TimedSpline::try_new_with_start` builds a curve
from a start value and keyframes, failing on malformed keyframes. -/
def TimedSpline.try_new_with_start (start : T) (kfs : List (Keyframe T))
    (_mode : InterpolationMode) : Except InterpolatorError (TimedSpline T) :=
  if validKeyframes kfs then .ok ⟨start, kfs⟩ else .error .invalidKeyframeTimes

/-- One frame of a motion file (`MotionFile::motion` element). -/
structure MotionFrame (CI T : Type) where
  entry_condition : Option (Condition CI)
  keyframes : List (Keyframe T)
  exit_condition : Option (Condition CI)

/-- The parsed motion description (`MotionFile`). -/
structure MotionFile (CI T : Type) where
  interpolation_mode : InterpolationMode
  initial_positions : T
  motion : List (MotionFrame CI T)

/-- The `tuple_windows` loop of `TryFrom<MotionFile<T>>`: for each pair of
consecutive frames, build the second frame's spline starting from the first
frame's last keyframe (whose absence is a Rust panic), propagating curve
errors in order. -/
def buildTail (mode : InterpolationMode) :
    List (MotionFrame CI T) → Except ConstructionFailure (List (ConditionedSpline CI T))
  | f1 :: f2 :: rest =>
    match f1.keyframes.getLast? with
    | none => .error .panicked
    | some kf =>
      match TimedSpline.try_new_with_start kf.positions f2.keyframes mode with
      | .error e => .error (.propagated e)
      | .ok spline =>
        match buildTail mode (f2 :: rest) with
        | .error e => .error e
        | .ok tail =>
          .ok ({ entry_condition := f2.entry_condition, spline := spline,
                 exit_condition := f2.exit_condition } :: tail)
  | _ => .ok []

/-- `TryFrom<MotionFile<T>> for MotionInterpolator<T>`: the first frame's
spline starts from the file's initial positions (`motion.first().unwrap()`
panics on an empty phase list); later frames chain from their predecessor's
last keyframe. -/
def MotionInterpolator.try_from (motion_file : MotionFile CI T) :
    Except ConstructionFailure (MotionInterpolator CI T) :=
  match motion_file.motion with
  | [] => .error .panicked
  | first_frame :: rest =>
    match TimedSpline.try_new_with_start motion_file.initial_positions first_frame.keyframes
        motion_file.interpolation_mode with
    | .error e => .error (.propagated e)
    | .ok first_spline =>
      match buildTail motion_file.interpolation_mode (first_frame :: rest) with
      | .error e => .error e
      | .ok tail =>
        .ok { frames := { entry_condition := first_frame.entry_condition,
                          spline := first_spline,
                          exit_condition := first_frame.exit_condition } :: tail,
              current_state := .CheckEntry 0 0 }

/-- Modelled from the spec: the framework's motion identifiers (the `types`
crate's `MotionType`); only the stand-up-front identifier matters here, all
other motions are collapsed into one representative. -/
inductive MotionType
  | StandUpFront
  | OtherMotion
deriving DecidableEq, Repr

/-- Update one motion's entry in the per-motion finished-flag map
(`motion_finished[MotionType::StandUpFront] = b`). -/
def setFlag (flags : MotionType → Bool) (motion : MotionType) (b : Bool) : MotionType → Bool :=
  fun m => if m = motion then b else flags m

/-- The per-cycle inputs of `StandUpFront::cycle` (its `CycleContext`):
last cycle duration, condition input, the framework's currently selected
motion, and the incoming persistent finished-flag map. -/
structure CycleContext (CI : Type) where
  last_cycle_duration : Duration
  condition_input : CI
  current_motion : MotionType
  motion_finished : MotionType → Bool

/-- The per-cycle outputs of `StandUpFront::cycle`: the updated interpolator,
the outgoing finished-flag map, and the published positions. -/
structure CycleOutput (CI T : Type) where
  interpolator : MotionInterpolator CI T
  motion_finished : MotionType → Bool
  stand_up_front_positions : T

/-- `StandUpFront::compute_stand_up_front`: clear the finished flag, advance
the interpolator, set the flag when finished, and return the value. -/
def compute_stand_up_front [Interpolate T] (interpolator : MotionInterpolator CI T)
    (context : CycleContext CI) : Option (CycleOutput CI T) :=
  let flags := setFlag context.motion_finished .StandUpFront false
  (interpolator.advance_by context.last_cycle_duration context.condition_input).bind
    fun interpolator2 =>
      let flags2 := if interpolator2.is_finished then setFlag flags .StandUpFront true else flags
      interpolator2.value.map fun v =>
        { interpolator := interpolator2, motion_finished := flags2,
          stand_up_front_positions := v }

/-- `StandUpFront::cycle`: run `compute_stand_up_front` when this motion is
the currently selected one, otherwise reset the interpolator, leave the
finished flags untouched, and still publish the (idle) value. -/
def stand_up_front_cycle [Interpolate T] (interpolator : MotionInterpolator CI T)
    (context : CycleContext CI) : Option (CycleOutput CI T) :=
  match context.current_motion with
  | .StandUpFront => compute_stand_up_front interpolator context
  | _ =>
    (interpolator.reset.value).map fun v =>
      { interpolator := interpolator.reset, motion_finished := context.motion_finished,
        stand_up_front_positions := v }

/-- Modelled from the spec: the fall orientation carried by a fall state
(the `types` crate's fall-state kind). -/
inductive Kind
  | Front
  | Back
deriving DecidableEq, Repr

/-- Modelled from the spec: the fall-state classification (the `types`
crate's `FallState`): stable (upright), fallen with an orientation, or
recovering (standing up) with an orientation. -/
inductive FallState
  | Upright
  | Fallen (kind : Kind)
  | StandingUp (kind : Kind)
deriving DecidableEq, Repr

/-- Modelled from the spec: the motion intent produced by the behavior layer
(the `types` crate's `MotionCommand`); only the stand-up intent matters here. -/
inductive MotionCommand
  | StandUp (kind : Kind)
deriving DecidableEq, Repr

/-- Modelled from the spec: the robot part of the world state; `rest` stands
for all the fields the behavior selector does not read. -/
structure RobotState (A : Type) where
  fall_state : FallState
  rest : A

/-- Modelled from the spec: the world state; `rest` stands for all the
fields the behavior selector does not read. -/
structure WorldState (A B : Type) where
  robot : RobotState A
  rest : B

/-- `behavior::stand_up::execute`. -/
def execute (world_state : WorldState A B) : Option MotionCommand :=
  match world_state.robot.fall_state with
  | .Fallen kind => some (.StandUp kind)
  | .StandingUp kind => some (.StandUp kind)
  | _ => none

/-! Helper lemmas shared by several claims. -/

/-- A successful advance step never changes the frame list. -/
theorem advance_by_frames_eq {m m' : MotionInterpolator CI T} {s : Duration} {ci : CI}
    (h : m.advance_by s ci = some m') : m'.frames = m.frames := by
  unfold MotionInterpolator.advance_by at h
  cases hst : m.current_state <;> rw [hst] at h <;>
    simp only [Option.map_eq_some', Option.some.injEq] at h
  case CheckEntry k t => obtain ⟨f, _, rfl⟩ := h; rfl
  case InterpolateSpline k t => obtain ⟨f, _, rfl⟩ := h; rfl
  case CheckExit k t => obtain ⟨f, _, rfl⟩ := h; rfl
  case Finished => rw [← h]
  case Aborted s k => rw [← h]

/-- A successful run of advance calls never changes the frame list. -/
theorem advanceList_frames_eq {m m' : MotionInterpolator CI T}
    {calls : List (Duration × CI)} (h : advanceList m calls = some m') :
    m'.frames = m.frames := by
  induction calls generalizing m with
  | nil =>
    rw [advanceList, Option.some.injEq] at h
    rw [← h]
  | cons p rest ih =>
    rw [advanceList, Option.bind_eq_some] at h
    obtain ⟨m1, h1, h2⟩ := h
    exact (ih h2).trans (advance_by_frames_eq h1)

/-- In a terminal state, one advance call leaves the machine unchanged. -/
theorem advance_by_of_finished {m : MotionInterpolator CI T} (h : m.is_finished = true)
    (s : Duration) (ci : CI) : m.advance_by s ci = some m := by
  unfold MotionInterpolator.is_finished at h
  unfold MotionInterpolator.advance_by
  cases hst : m.current_state <;> rw [hst] at h <;> simp_all

/-- In a terminal state, any run of advance calls leaves the machine unchanged. -/
theorem advanceList_of_finished {m : MotionInterpolator CI T} (h : m.is_finished = true) :
    ∀ calls : List (Duration × CI), advanceList m calls = some m := by
  intro calls
  induction calls with
  | nil => rfl
  | cons p rest ih =>
    rw [advanceList, advance_by_of_finished h, Option.some_bind]
    exact ih

/-- One advance step from `InterpolateSpline(f, t)` when the stored elapsed
time has not yet reached the phase duration: keep interpolating with the
elapsed time increased by the step. -/
theorem advance_interp_lt {m : MotionInterpolator CI T} {f t : Nat}
    {fr : ConditionedSpline CI T} (hfr : m.frames[f]? = some fr)
    (hst : m.current_state = .InterpolateSpline f t)
    (hlt : t < fr.spline.total_duration) (step : Duration) (ci : CI) :
    m.advance_by step ci = some { m with current_state := .InterpolateSpline f (t + step) } := by
  unfold MotionInterpolator.advance_by
  rw [hst]
  simp only [hfr, Option.map_some', ge_iff_le]
  rw [if_neg (Nat.not_le.mpr hlt)]

/-- One advance step from `InterpolateSpline(f, t)` when the stored elapsed
time has already reached the phase duration: move to `CheckExit(f, 0)`. -/
theorem advance_interp_ge {m : MotionInterpolator CI T} {f t : Nat}
    {fr : ConditionedSpline CI T} (hfr : m.frames[f]? = some fr)
    (hst : m.current_state = .InterpolateSpline f t)
    (hge : fr.spline.total_duration ≤ t) (step : Duration) (ci : CI) :
    m.advance_by step ci = some { m with current_state := .CheckExit f 0 } := by
  unfold MotionInterpolator.advance_by
  rw [hst]
  simp only [hfr, Option.map_some', ge_iff_le]
  rw [if_pos hge]

/-! Concrete machines used when settling the individual claims. -/

/-- A one-phase, condition-free machine with phase duration 10, start pose 0
and end pose 1, mid-interpolation at elapsed time 5. -/
def mC1 : MotionInterpolator Unit ℚ :=
  { frames := [⟨none, ⟨0, [⟨1, 10⟩]⟩, none⟩], current_state := .InterpolateSpline 0 5 }

/-- C1: the spec's transition table compares the phase duration against the
updated elapsed time `t + step`.  The code compares the stored elapsed time
`t` instead: at `Interpolating(0, 5)` with duration 10 and step 5 we have
`t + step ≥ duration`, so the claim predicts `CheckExit(0, 0)`, but the code
stays in `Interpolating(0, 10)`. -/
theorem C1_counterexample :
    mC1.frames.length = 1 ∧
    mC1.current_state = .InterpolateSpline 0 5 ∧
    (mC1.frames[0]).spline.total_duration = 10 ∧
    5 + 5 ≥ 10 ∧
    (mC1.advance_by 5 ()).map MotionInterpolator.current_state =
      some (.InterpolateSpline 0 10) ∧
    (mC1.advance_by 5 ()).map MotionInterpolator.current_state ≠ some (.CheckExit 0 0) := by
  refine ⟨rfl, rfl, rfl, by omega, rfl, by decide⟩

/-- C1 (amended): at `Interpolating(f, t)` the comparison against the phase
duration is made on the stored elapsed time `t`, before the step is added:
if `t <` the phase duration the next cursor is `Interpolating(f, t + step)`
(even when `t + step` reaches the duration), and if `t ≥` the phase duration
the next cursor is `CheckExit(f, 0)`. -/
theorem C1_amended {m : MotionInterpolator CI T} {f t : Nat}
    {fr : ConditionedSpline CI T} (hfr : m.frames[f]? = some fr)
    (hst : m.current_state = .InterpolateSpline f t)
    (step : Duration) (ci : CI) :
    (t < fr.spline.total_duration →
      m.advance_by step ci = some { m with current_state := .InterpolateSpline f (t + step) }) ∧
    (fr.spline.total_duration ≤ t →
      m.advance_by step ci = some { m with current_state := .CheckExit f 0 }) :=
  ⟨fun hlt => advance_interp_lt hfr hst hlt step ci,
   fun hge => advance_interp_ge hfr hst hge step ci⟩

/-- C1 witness: on the concrete machine `mC1` (elapsed 5, duration 10), one
advance by 3 keeps interpolating at elapsed 8. -/
theorem C1_witness :
    mC1.advance_by 3 () = some { mC1 with current_state := .InterpolateSpline 0 8 } :=
  (C1_amended (m := mC1) rfl rfl 3 ()).1 (by decide)

/-- The spec's concrete 2-phase scenario, in milliseconds: phase 0 has
duration 1000 from pose 0 to pose 1, phase 1 has duration 2000 from pose 1
to pose 2, no conditions, initial cursor. -/
def mC2 : MotionInterpolator Unit ℚ :=
  { frames := [⟨none, ⟨0, [⟨1, 1000⟩]⟩, none⟩, ⟨none, ⟨1, [⟨2, 2000⟩]⟩, none⟩],
    current_state := .CheckEntry 0 0 }

/-- The scenario's first four advance calls: 0.5 s three times, then 1.5 s. -/
def seqC2a : List (Duration × Unit) := [(500, ()), (500, ()), (500, ()), (1500, ())]

/-- Eight further advance calls of 0.5 s each. -/
def seqC2b : List (Duration × Unit) := List.replicate 8 (500, ())

/-- C2: the claim predicts that after advance(0.5s) three times and
advance(1.5s) once the cursor is Interpolating in phase 1 with 0.5s elapsed.
On the code the cursor is `CheckExit(0, 0)` instead: the first call is
consumed by the phase-0 entry check, and the duration comparison lags one
call behind the elapsed time. -/
theorem C2_counterexample :
    (advanceList mC2 seqC2a).map MotionInterpolator.current_state = some (.CheckExit 0 0) ∧
    (advanceList mC2 seqC2a).map MotionInterpolator.current_state ≠
      some (.InterpolateSpline 1 500) := by
  exact ⟨by decide, by decide⟩

/-- C2 (amended): after advance(0.5s) three times and advance(1.5s) once the
cursor is `CheckExit(0, 0)` — the end of phase 0 — and value() is [1.0]; after
8 further advance(0.5s) calls, is_finished() is true and value() is [2.0]. -/
theorem C2_amended :
    (advanceList mC2 seqC2a).map MotionInterpolator.current_state = some (.CheckExit 0 0) ∧
    (advanceList mC2 seqC2a).bind MotionInterpolator.value = some 1 ∧
    (advanceList mC2 (seqC2a ++ seqC2b)).map MotionInterpolator.is_finished = some true ∧
    (advanceList mC2 (seqC2a ++ seqC2b)).bind MotionInterpolator.value = some 2 := by
  refine ⟨by decide, by decide, by decide, by decide⟩

/-- Mapping a function over the optional first element of a non-empty list
yields the function applied to its head. -/
theorem getElem_zero_map_head {α β : Type} (l : List α) (hne : l ≠ []) (g : α → β) :
    (l[0]?).map g = some (g (l.head hne)) := by
  cases l with
  | nil => exact absurd rfl hne
  | cons a as => rw [List.getElem?_cons_zero]; rfl

/-- C5: after any successful run of advance calls, `reset` puts the cursor
back at `CheckEntry(0, 0)`, after which `value()` is phase 0's curve start
value and `is_finished()` is false; `reset` is idempotent. -/
theorem C5_reset [Interpolate T] (m m' : MotionInterpolator CI T)
    (hne : m.frames ≠ []) (calls : List (Duration × CI))
    (h : advanceList m calls = some m') :
    m'.reset.current_state = .CheckEntry 0 0 ∧
    m'.reset.value = some ((m.frames.head hne).spline.start_position) ∧
    m'.reset.is_finished = false ∧
    m'.reset.reset = m'.reset := by
  have hfr : m'.frames = m.frames := advanceList_frames_eq h
  refine ⟨rfl, ?_, rfl, rfl⟩
  show (m'.reset.frames[0]?).map (fun f => f.spline.start_position) = _
  rw [show m'.reset.frames = m.frames from hfr]
  exact getElem_zero_map_head m.frames hne _

/-- One-phase condition-free machine at the initial cursor: duration 10,
start pose 0, end pose 1. -/
def mC5 : MotionInterpolator Unit ℚ :=
  { frames := [⟨none, ⟨0, [⟨1, 10⟩]⟩, none⟩], current_state := .CheckEntry 0 0 }

/-- C5 witness: on the concrete machine `mC5` after an empty run, reset lands
on `CheckEntry(0, 0)` with value 0, not finished, and is idempotent. -/
theorem C5_witness :
    mC5.reset.current_state = .CheckEntry 0 0 ∧
    mC5.reset.value = some 0 ∧
    mC5.reset.is_finished = false ∧
    mC5.reset.reset = mC5.reset :=
  C5_reset mC5 mC5 (List.cons_ne_nil _ _) [] rfl

/-- C9: the behavior selector returns a stand-up intent carrying the fall
orientation exactly when the fall state is fallen or standing-up, returns no
intent when the fall state is stable, and reads only the fall state (it is a
pure function of it). -/
theorem C9_stand_up_selector {A B : Type} (w : WorldState A B) :
    (∀ k, w.robot.fall_state = .Fallen k → execute w = some (.StandUp k)) ∧
    (∀ k, w.robot.fall_state = .StandingUp k → execute w = some (.StandUp k)) ∧
    (w.robot.fall_state = .Upright → execute w = none) ∧
    (∀ {A2 B2 : Type} (w2 : WorldState A2 B2),
      w.robot.fall_state = w2.robot.fall_state → execute w = execute w2) := by
  refine ⟨?_, ?_, ?_, ?_⟩
  · intro k hk; unfold execute; rw [hk]
  · intro k hk; unfold execute; rw [hk]
  · intro hk; unfold execute; rw [hk]
  · intro A2 B2 w2 hk; unfold execute; rw [hk]

/-- C9 witness: fallen-back maps to a stand-up intent with orientation back,
recovering-front maps to a stand-up intent with orientation front, and the
stable (upright) state maps to no intent. -/
theorem C9_witness :
    execute (⟨⟨.Fallen .Back, ()⟩, ()⟩ : WorldState Unit Unit) = some (.StandUp .Back) ∧
    execute (⟨⟨.StandingUp .Front, ()⟩, ()⟩ : WorldState Unit Unit) = some (.StandUp .Front) ∧
    execute (⟨⟨.Upright, ()⟩, ()⟩ : WorldState Unit Unit) = none :=
  ⟨(C9_stand_up_selector _).1 .Back rfl,
   (C9_stand_up_selector _).2.1 .Front rfl,
   (C9_stand_up_selector _).2.2.1 rfl⟩

/-- One advance step from `CheckEntry(k, t)` whose entry condition evaluates
to Abort: move to the terminal `Aborted(Entry, k)`. -/
theorem advance_entry_abort {m : MotionInterpolator CI T} {k t : Nat}
    {fr : ConditionedSpline CI T} {c : Condition CI} {ci : CI}
    (hfr : m.frames[k]? = some fr) (hst : m.current_state = .CheckEntry k t)
    (hc : fr.entry_condition = some c) (habort : c.evaluate ci t = .Abort)
    (step : Duration) :
    m.advance_by step ci = some { m with current_state := .Aborted .Entry k } := by
  unfold MotionInterpolator.advance_by
  rw [hst]
  simp only [hfr, Option.map_some', hc]
  rw [habort]

/-- One advance step from `CheckEntry(k, t)` with no entry condition or an
entry condition evaluating to Continue: start interpolating at elapsed 0. -/
theorem advance_entry_continue {m : MotionInterpolator CI T} {k t : Nat}
    {fr : ConditionedSpline CI T} {ci : CI}
    (hfr : m.frames[k]? = some fr) (hst : m.current_state = .CheckEntry k t)
    (hc : ∀ c, fr.entry_condition = some c → c.evaluate ci t = .Continue)
    (step : Duration) :
    m.advance_by step ci = some { m with current_state := .InterpolateSpline k 0 } := by
  unfold MotionInterpolator.advance_by
  rw [hst]
  simp only [hfr, Option.map_some']
  cases hec : fr.entry_condition with
  | none => rfl
  | some c =>
    simp only [Option.map_some']
    rw [hc c hec]

/-- C3: an advance call made at `CheckEntry(k, t)` whose entry condition
evaluates to Abort moves the cursor to `Aborted(Entry, k)` in that single
call; there `is_finished()` is true, `value()` is phase k's curve start
value, and every further run of advance calls leaves the machine unchanged. -/
theorem C3_entry_abort_absorbing [Interpolate T] {m : MotionInterpolator CI T} {k t : Nat}
    {fr : ConditionedSpline CI T} {c : Condition CI} (ci : CI)
    (hfr : m.frames[k]? = some fr) (hst : m.current_state = .CheckEntry k t)
    (hc : fr.entry_condition = some c) (habort : c.evaluate ci t = .Abort)
    (step : Duration) :
    m.advance_by step ci = some { m with current_state := .Aborted .Entry k } ∧
    ({ m with current_state := State.Aborted .Entry k } :
      MotionInterpolator CI T).is_finished = true ∧
    ({ m with current_state := State.Aborted .Entry k } :
      MotionInterpolator CI T).value = some fr.spline.start_position ∧
    (∀ calls : List (Duration × CI),
      advanceList ({ m with current_state := State.Aborted .Entry k } :
        MotionInterpolator CI T) calls =
        some { m with current_state := State.Aborted .Entry k }) := by
  refine ⟨advance_entry_abort hfr hst hc habort step, rfl, ?_, ?_⟩
  · show (m.frames[k]?).map (fun f => f.spline.start_position) = some fr.spline.start_position
    rw [hfr]
    rfl
  · exact advanceList_of_finished rfl

/-- A condition that always demands Abort. -/
def abortCondC3 : Condition Unit := fun _ _ => .Abort

/-- A one-phase machine whose entry condition always aborts. -/
def mC3 : MotionInterpolator Unit ℚ :=
  { frames := [⟨some abortCondC3, ⟨0, [⟨1, 10⟩]⟩, none⟩], current_state := .CheckEntry 0 0 }

/-- C3 witness: on the concrete machine `mC3` the first advance aborts at
phase 0, the terminal state reports finished with value 0, and two further
advance calls leave it unchanged. -/
theorem C3_witness :
    mC3.advance_by 7 () = some { mC3 with current_state := .Aborted .Entry 0 } ∧
    ({ mC3 with current_state := State.Aborted .Entry 0 } :
      MotionInterpolator Unit ℚ).is_finished = true ∧
    ({ mC3 with current_state := State.Aborted .Entry 0 } :
      MotionInterpolator Unit ℚ).value = some 0 ∧
    advanceList ({ mC3 with current_state := State.Aborted .Entry 0 } :
      MotionInterpolator Unit ℚ) [(5, ()), (3, ())] =
      some { mC3 with current_state := State.Aborted .Entry 0 } := by
  have h := C3_entry_abort_absorbing (m := mC3) (k := 0) (t := 0) (c := abortCondC3) ()
    (show mC3.frames[0]? = some ⟨some abortCondC3, ⟨0, [⟨1, 10⟩]⟩, none⟩ from rfl)
    rfl rfl rfl 7
  exact ⟨h.1, h.2.1, h.2.2.1, h.2.2.2 _⟩

/-- Evaluating a curve at elapsed time zero yields its start value. -/
theorem TimedSpline.value_at_zero [Interpolate T] (s : TimedSpline T) :
    s.value_at 0 = s.start_positions := by
  unfold TimedSpline.value_at
  cases s.keyframes with
  | nil => rfl
  | cons kf rest =>
    unfold valueAtFrom
    rw [if_pos (Nat.zero_le kf.time)]
    norm_num
    exact Interpolate.lerp_zero _ _

/-- C6: seeding the start pose right after reset, then one advance whose
entry condition is absent or Continue, lands on `Interpolating(0, 0)` where
`value()` is the seeded pose; seeding rewrites only the first phase's curve
start value and leaves every other phase (and the first phase's conditions
and keyframes) unchanged. -/
theorem C6_seed_start_pose [Interpolate T] (m : MotionInterpolator CI T) (p : T)
    (step : Duration) (ci : CI) (hne : m.frames ≠ [])
    (hc : ∀ c, (m.frames.head hne).entry_condition = some c → c.evaluate ci 0 = .Continue) :
    ((m.reset.set_initial_positions p).advance_by step ci =
      some { m.reset.set_initial_positions p with current_state := .InterpolateSpline 0 0 }) ∧
    ({ m.reset.set_initial_positions p with current_state := State.InterpolateSpline 0 0 } :
      MotionInterpolator CI T).value = some p ∧
    (m.reset.set_initial_positions p).frames =
      { m.frames.head hne with
        spline := { (m.frames.head hne).spline with start_positions := p } } :: m.frames.tail := by
  obtain ⟨frames, st⟩ := m
  cases frames with
  | nil => exact absurd rfl hne
  | cons a as =>
    refine ⟨?_, ?_, rfl⟩
    · exact @advance_entry_continue CI T _ 0 0
        { a with spline := a.spline.set_initial_positions p } ci
        List.getElem?_cons_zero rfl (fun c h => hc c h) step
    · show (((
        { a with spline := a.spline.set_initial_positions p } :: as :
          List (ConditionedSpline CI T))[0]?).map (fun f => f.spline.value_at 0)) = some p
      rw [List.getElem?_cons_zero, Option.map_some', TimedSpline.value_at_zero]
      rfl

/-- A two-phase condition-free machine parked in a mid-playback state, used
to exercise reset-then-seed. -/
def mC6 : MotionInterpolator Unit ℚ :=
  { frames := [⟨none, ⟨0, [⟨1, 10⟩]⟩, none⟩, ⟨none, ⟨1, [⟨2, 20⟩]⟩, none⟩],
    current_state := .CheckExit 1 3 }

/-- C6 witness: resetting `mC6`, seeding pose 5 and advancing once lands on
`Interpolating(0, 0)` with value 5, and only phase 0's start value changed. -/
theorem C6_witness :
    ((mC6.reset.set_initial_positions 5).advance_by 2 () =
      some { mC6.reset.set_initial_positions 5 with current_state := .InterpolateSpline 0 0 }) ∧
    ({ mC6.reset.set_initial_positions 5 with current_state := State.InterpolateSpline 0 0 } :
      MotionInterpolator Unit ℚ).value = some 5 ∧
    (mC6.reset.set_initial_positions 5).frames =
      [⟨none, ⟨5, [⟨1, 10⟩]⟩, none⟩, ⟨none, ⟨1, [⟨2, 20⟩]⟩, none⟩] :=
  C6_seed_start_pose mC6 5 2 () (List.cons_ne_nil _ _) (fun _ h => Option.noConfusion h)

/-- A one-phase machine at the initial cursor, used for the deselected-cycle
counterexample. -/
def mC7ns : MotionInterpolator Unit ℚ :=
  { frames := [⟨none, ⟨0, [⟨1, 10⟩]⟩, none⟩], current_state := .CheckEntry 0 0 }

/-- A cycle context in which the stand-up-front motion is not the currently
selected motion and the incoming finished flag is (stale) true. -/
def ctxC7ns : CycleContext Unit :=
  { last_cycle_duration := 8, condition_input := (), current_motion := .OtherMotion,
    motion_finished := fun _ => true }

/-- C7: on a cycle in which the stand-up-front motion is not the currently
selected motion, the cycle function does not clear the finished flag: a stale
true flag stays true even though the machine is not finished this cycle, so
the flag is not set to false before doing any other work on every cycle. -/
theorem C7_counterexample :
    ctxC7ns.current_motion ≠ .StandUpFront ∧
    (stand_up_front_cycle mC7ns ctxC7ns).map
      (fun out => out.motion_finished .StandUpFront) = some true ∧
    (stand_up_front_cycle mC7ns ctxC7ns).map
      (fun out => out.interpolator.is_finished) = some false := by
  refine ⟨by decide, rfl, rfl⟩

/-- C7 (amended): only on cycles in which the stand-up-front motion is the
currently selected motion does the executor clear the finished flag before
any other work; on those cycles the outgoing flag equals `is_finished()`
observed after the advance, independently of the incoming flag value. On
cycles in which the motion is not selected, the flag map is left untouched. -/
theorem C7_amended [Interpolate T] (interpolator : MotionInterpolator CI T)
    (context : CycleContext CI) (out : CycleOutput CI T) :
    (context.current_motion = .StandUpFront →
      stand_up_front_cycle interpolator context = compute_stand_up_front interpolator context ∧
      (stand_up_front_cycle interpolator context = some out →
        out.motion_finished .StandUpFront = out.interpolator.is_finished)) ∧
    (context.current_motion ≠ .StandUpFront →
      stand_up_front_cycle interpolator context = some out →
      out.motion_finished = context.motion_finished) := by
  constructor
  · intro hsel
    have hcyc : stand_up_front_cycle interpolator context =
        compute_stand_up_front interpolator context := by
      unfold stand_up_front_cycle
      rw [hsel]
    refine ⟨hcyc, ?_⟩
    intro hout
    rw [hcyc] at hout
    unfold compute_stand_up_front at hout
    rw [Option.bind_eq_some] at hout
    obtain ⟨i2, hadv, hout⟩ := hout
    rw [Option.map_eq_some'] at hout
    obtain ⟨v, hv, hrec⟩ := hout
    rw [← hrec]
    cases hfin : i2.is_finished <;> simp [setFlag, hfin]
  · intro hsel hout
    unfold stand_up_front_cycle at hout
    cases hcm : context.current_motion
    · exact absurd hcm hsel
    · rw [hcm] at hout
      rw [Option.map_eq_some'] at hout
      obtain ⟨v, hv, hrec⟩ := hout
      rw [← hrec]

/-- A one-phase machine waiting at `CheckExit(0, 0)`, one advance away from
finishing. -/
def mC7sel : MotionInterpolator Unit ℚ :=
  { frames := [⟨none, ⟨0, [⟨1, 10⟩]⟩, none⟩], current_state := .CheckExit 0 0 }

/-- A cycle context in which the stand-up-front motion is the currently
selected motion. -/
def ctxC7sel : CycleContext Unit :=
  { last_cycle_duration := 5, condition_input := (), current_motion := .StandUpFront,
    motion_finished := fun _ => false }

/-- The cycle output produced by running the selected cycle on `mC7sel`. -/
def outC7sel : CycleOutput Unit ℚ :=
  { interpolator := { mC7sel with current_state := .Finished },
    motion_finished :=
      setFlag (setFlag (fun _ => false) .StandUpFront false) .StandUpFront true,
    stand_up_front_positions := 1 }

/-- C7 witness: on the selected cycle that finishes the motion, the outgoing
finished flag equals the observed `is_finished()`. -/
theorem C7_witness :
    outC7sel.motion_finished .StandUpFront = outC7sel.interpolator.is_finished :=
  ((C7_amended mC7sel ctxC7sel outC7sel).1 rfl).2 rfl

/-- A motion file with an empty phase list. -/
def emptyFileC8 : MotionFile Unit ℚ :=
  { interpolation_mode := .Linear, initial_positions := 0, motion := [] }

/-- C8: constructing from an empty phase list does not return a propagated
construction-time error to the caller — it panics (`motion.first().unwrap()`),
modelled as the distinguished `panicked` outcome; in particular it does not
succeed. -/
theorem C8_counterexample :
    MotionInterpolator.try_from emptyFileC8 = .error .panicked ∧
    MotionInterpolator.try_from emptyFileC8 ≠
      .error (.propagated .invalidKeyframeTimes) := by
  constructor
  · rfl
  · intro h
    rw [show MotionInterpolator.try_from emptyFileC8 =
      Except.error ConstructionFailure.panicked from rfl] at h
    exact (by decide :
      ConstructionFailure.panicked ≠ ConstructionFailure.propagated .invalidKeyframeTimes)
      (Except.error.inj h)

/-- Building a curve from invalid keyframes returns the interpolator error. -/
theorem try_new_invalid (start : T) (kfs : List (Keyframe T)) (mode : InterpolationMode)
    (h : validKeyframes kfs = false) :
    TimedSpline.try_new_with_start start kfs mode = .error .invalidKeyframeTimes := by
  unfold TimedSpline.try_new_with_start
  rw [h]
  rfl

/-- Building a curve from valid keyframes succeeds. -/
theorem try_new_valid (start : T) (kfs : List (Keyframe T)) (mode : InterpolationMode)
    (h : validKeyframes kfs = true) :
    TimedSpline.try_new_with_start start kfs mode = .ok ⟨start, kfs⟩ := by
  unfold TimedSpline.try_new_with_start
  rw [h]
  rfl

/-- Valid keyframes are in particular non-empty, so they have a last element. -/
theorem valid_getLast {kfs : List (Keyframe T)} (h : validKeyframes kfs = true) :
    ∃ kf, kfs.getLast? = some kf := by
  cases kfs with
  | nil => simp [validKeyframes] at h
  | cons a l => exact ⟨_, List.getLast?_eq_getLast _ (List.cons_ne_nil a l)⟩

/-- If the window loop starts from a frame with valid keyframes and some
later frame's keyframes are invalid, the loop returns the propagated
interpolator error: each window validates its second frame's keyframes, and
a frame's last keyframe is only read after an earlier window (or the first
spline) already validated that frame, so the first failure it can hit is the
curve error of the earliest invalid frame. -/
theorem buildTail_invalid_mem (mode : InterpolationMode) :
    ∀ (rest : List (MotionFrame CI T)) (f1 : MotionFrame CI T),
      validKeyframes f1.keyframes = true →
      ∀ fr ∈ rest, validKeyframes fr.keyframes = false →
      buildTail mode (f1 :: rest) = .error (.propagated .invalidKeyframeTimes) := by
  intro rest
  induction rest with
  | nil =>
    intro f1 _ fr hmem _
    exact absurd hmem (List.not_mem_nil fr)
  | cons f2 rest2 ih =>
    intro f1 hv1 fr hmem hbad
    obtain ⟨kf, hkf⟩ := valid_getLast hv1
    unfold buildTail
    rw [hkf]
    cases hv2 : validKeyframes f2.keyframes with
    | false =>
      simp only [try_new_invalid _ _ _ hv2]
    | true =>
      have hmem2 : fr ∈ rest2 := by
        rcases List.mem_cons.mp hmem with heq | h
        · subst heq
          rw [hbad] at hv2
          exact Bool.noConfusion hv2
        · exact h
      simp only [try_new_valid _ _ _ hv2, ih f2 hv2 fr hmem2 hbad]

/-- C8 (amended): construction from an empty phase list fails by panicking
(a fatal abort, not an error returned to the caller); construction from a
phase list in which any phase's keyframes cannot form a valid curve fails by
returning the propagated interpolator error; and a Playback State Machine is
never constructed with an empty phase list — every successful construction
has a non-empty source phase list and a non-empty frame list. -/
theorem C8_amended (motion_file : MotionFile CI T) :
    (motion_file.motion = [] →
      MotionInterpolator.try_from motion_file = .error .panicked) ∧
    (∀ fr ∈ motion_file.motion, validKeyframes fr.keyframes = false →
      MotionInterpolator.try_from motion_file =
        .error (.propagated .invalidKeyframeTimes)) ∧
    (∀ m', MotionInterpolator.try_from motion_file = .ok m' →
      motion_file.motion ≠ [] ∧ m'.frames ≠ []) := by
  refine ⟨?_, ?_, ?_⟩
  · intro hm
    unfold MotionInterpolator.try_from
    rw [hm]
  · intro fr hmem hbad
    unfold MotionInterpolator.try_from
    cases hm : motion_file.motion with
    | nil =>
      rw [hm] at hmem
      exact absurd hmem (List.not_mem_nil fr)
    | cons f0 rest =>
      rw [hm] at hmem
      cases hv0 : validKeyframes f0.keyframes with
      | false =>
        simp only [try_new_invalid _ _ _ hv0]
      | true =>
        have hmem2 : fr ∈ rest := by
          rcases List.mem_cons.mp hmem with heq | h
          · subst heq
            rw [hbad] at hv0
            exact Bool.noConfusion hv0
          · exact h
        simp only [try_new_valid _ _ _ hv0,
          buildTail_invalid_mem motion_file.interpolation_mode rest f0 hv0 fr hmem2 hbad]
  · intro m' h
    unfold MotionInterpolator.try_from at h
    cases hm : motion_file.motion with
    | nil =>
      rw [hm] at h
      exact Except.noConfusion h
    | cons first_frame rest =>
      rw [hm] at h
      refine ⟨by simp [hm], ?_⟩
      cases h1 : TimedSpline.try_new_with_start motion_file.initial_positions
          first_frame.keyframes motion_file.interpolation_mode with
      | error e => simp only [h1] at h; exact Except.noConfusion h
      | ok first_spline =>
        simp only [h1] at h
        cases h2 : buildTail motion_file.interpolation_mode (first_frame :: rest) with
        | error e => simp only [h2] at h; exact Except.noConfusion h
        | ok tail =>
          simp only [h2, Except.ok.injEq] at h
          rw [← h]
          exact List.cons_ne_nil _ _

/-- A motion file whose single phase has an empty keyframe list, so its
curve cannot be built. -/
def badFileC8 : MotionFile Unit ℚ :=
  { interpolation_mode := .Linear, initial_positions := 0,
    motion := [{ entry_condition := none, keyframes := [], exit_condition := none }] }

/-- A motion file whose first phase is valid but whose second phase has an
empty keyframe list, so the second curve cannot be built. -/
def badFileC8b : MotionFile Unit ℚ :=
  { interpolation_mode := .Linear, initial_positions := 0,
    motion :=
      [{ entry_condition := none, keyframes := [⟨1, 10⟩], exit_condition := none },
       { entry_condition := none, keyframes := [], exit_condition := none }] }

/-- C8 witness: the empty phase list panics; an unbuildable curve propagates
the interpolator error, whether it sits in the first phase or in a later
phase behind a valid one. -/
theorem C8_witness :
    MotionInterpolator.try_from emptyFileC8 = .error .panicked ∧
    MotionInterpolator.try_from badFileC8 =
      .error (.propagated .invalidKeyframeTimes) ∧
    MotionInterpolator.try_from badFileC8b =
      .error (.propagated .invalidKeyframeTimes) :=
  ⟨(C8_amended emptyFileC8).1 rfl,
   (C8_amended badFileC8).2.1 _ (List.mem_cons_self _ _) rfl,
   (C8_amended badFileC8b).2.1 _
     (List.mem_cons_of_mem _ (List.mem_cons_self _ _)) rfl⟩

/-- If every frame index carried by the cursor is in bounds, one advance
step succeeds, preserves the frame list, and keeps every carried index in
bounds. -/
theorem advance_total_of_indexOk {m : MotionInterpolator CI T}
    (hok : m.current_state.indexOk m.frames.length = true) (step : Duration) (ci : CI) :
    ∃ m', m.advance_by step ci = some m' ∧ m'.frames = m.frames ∧
      m'.current_state.indexOk m.frames.length = true := by
  unfold MotionInterpolator.advance_by
  cases hst : m.current_state <;> rw [hst] at hok <;>
    simp only [State.indexOk, decide_eq_true_eq] at hok
  case CheckEntry k t =>
    simp only [List.getElem?_eq_getElem hok, Option.map_some']
    refine ⟨_, rfl, rfl, ?_⟩
    split <;> simp only [State.indexOk, decide_eq_true_eq] <;> omega
  case InterpolateSpline k t =>
    simp only [List.getElem?_eq_getElem hok, Option.map_some']
    refine ⟨_, rfl, rfl, ?_⟩
    split <;> simp only [State.indexOk, decide_eq_true_eq] <;> omega
  case CheckExit k t =>
    simp only [List.getElem?_eq_getElem hok, Option.map_some']
    refine ⟨_, rfl, rfl, ?_⟩
    split
    · simp only [State.indexOk, decide_eq_true_eq]; omega
    · simp only [State.indexOk, decide_eq_true_eq]; omega
    · split
      · next hlast => simp only [State.indexOk, decide_eq_true_eq]; omega
      · rfl
  case Finished =>
    exact ⟨m, rfl, rfl, by rw [hst]; rfl⟩
  case Aborted s k =>
    refine ⟨m, rfl, rfl, ?_⟩
    rw [hst]
    simp only [State.indexOk, decide_eq_true_eq]
    omega

/-- If the cursor's indices are in bounds and the frame list is non-empty,
`value()` succeeds. -/
theorem value_isSome_of_indexOk [Interpolate T] {m : MotionInterpolator CI T}
    (hne : m.frames ≠ [])
    (hok : m.current_state.indexOk m.frames.length = true) : m.value.isSome = true := by
  unfold MotionInterpolator.value
  cases hst : m.current_state <;> rw [hst] at hok <;>
    simp only [State.indexOk, decide_eq_true_eq] at hok
  case CheckEntry k t =>
    simp only [List.getElem?_eq_getElem hok, Option.map_some', Option.isSome_some]
  case InterpolateSpline k t =>
    simp only [List.getElem?_eq_getElem hok, Option.map_some', Option.isSome_some]
  case CheckExit k t =>
    simp only [List.getElem?_eq_getElem hok, Option.map_some', Option.isSome_some]
  case Finished =>
    simp only [List.getLast?_eq_getLast _ hne, Option.map_some', Option.isSome_some]
  case Aborted s k =>
    cases s <;>
      simp only [List.getElem?_eq_getElem hok, Option.map_some', Option.isSome_some]

/-- Running any list of operations from an in-bounds cursor succeeds,
preserves the frame list, and ends with an in-bounds cursor. -/
theorem runOps_ok : ∀ (ops : List (Op CI)) (m : MotionInterpolator CI T),
    m.frames ≠ [] → m.current_state.indexOk m.frames.length = true →
    ∃ m', runOps m ops = some m' ∧ m'.frames = m.frames ∧
      m'.current_state.indexOk m.frames.length = true := by
  intro ops
  induction ops with
  | nil => intro m _ hok; exact ⟨m, rfl, rfl, hok⟩
  | cons op rest ih =>
    intro m hne hok
    cases op with
    | advance s ci =>
      obtain ⟨m1, h1, hf1, hok1⟩ := advance_total_of_indexOk hok s ci
      obtain ⟨m', h', hf', hok'⟩ := ih m1 (by rw [hf1]; exact hne) (by rw [hf1]; exact hok1)
      refine ⟨m', ?_, ?_, ?_⟩
      · show (m.advance_by s ci).bind (runOps · rest) = some m'
        rw [h1, Option.some_bind]
        exact h'
      · exact hf'.trans hf1
      · rw [← hf1]
        exact hok'
    | reset =>
      have hok0 : m.reset.current_state.indexOk m.reset.frames.length = true := by
        simp only [MotionInterpolator.reset, State.indexOk, decide_eq_true_eq]
        exact List.length_pos.mpr hne
      obtain ⟨m', h', hf', hok'⟩ := ih m.reset hne hok0
      refine ⟨m', ?_, hf', ?_⟩
      · show (some m.reset).bind (runOps · rest) = some m'
        rw [Option.some_bind]
        exact h'
      · exact hok'

/-- C10: from the initial cursor `CheckEntry(0, 0)` over a non-empty frame
list, every run of advance and reset operations succeeds (none of the frame
indexings panics), keeps the frame list unchanged, keeps every carried frame
index strictly below the number of frames, and leaves a state in which both
`value()` and any further `advance_by` succeed. -/
theorem C10_reachable_in_bounds [Interpolate T] (m : MotionInterpolator CI T)
    (hne : m.frames ≠ []) (hinit : m.current_state = .CheckEntry 0 0)
    (ops : List (Op CI)) :
    ∃ m', runOps m ops = some m' ∧ m'.frames = m.frames ∧
      m'.current_state.indexOk m.frames.length = true ∧
      m'.value.isSome = true ∧
      ∀ time_step condition_input,
        (m'.advance_by time_step condition_input).isSome = true := by
  have hok : m.current_state.indexOk m.frames.length = true := by
    rw [hinit]
    simp only [State.indexOk, decide_eq_true_eq]
    exact List.length_pos.mpr hne
  obtain ⟨m', h', hf', hok'⟩ := runOps_ok ops m hne hok
  have hok'' : m'.current_state.indexOk m'.frames.length = true := by
    rw [hf']; exact hok'
  refine ⟨m', h', hf', hok', ?_, ?_⟩
  · exact value_isSome_of_indexOk (by rw [hf']; exact hne) hok''
  · intro s c
    obtain ⟨m2, h2, _, _⟩ := advance_total_of_indexOk hok'' s c
    rw [h2]
    rfl

/-- A two-phase machine at the initial cursor used as the C10 witness. -/
def mC10 : MotionInterpolator Unit ℚ :=
  { frames := [⟨none, ⟨0, [⟨1, 10⟩]⟩, none⟩, ⟨none, ⟨1, [⟨2, 20⟩]⟩, none⟩],
    current_state := .CheckEntry 0 0 }

/-- C10 witness: a concrete run of advances and a reset on `mC10` stays in
bounds and keeps all operations total. -/
theorem C10_witness :
    ∃ m', runOps mC10 [Op.advance 5 (), Op.reset, Op.advance 3 ()] = some m' ∧
      m'.frames = mC10.frames ∧
      m'.current_state.indexOk mC10.frames.length = true ∧
      m'.value.isSome = true ∧
      ∀ time_step condition_input,
        (m'.advance_by time_step condition_input).isSome = true :=
  C10_reachable_in_bounds mC10 (List.cons_ne_nil _ _) rfl _

/-- No phase of the machine has an entry or exit condition. -/
def noConditions (m : MotionInterpolator CI T) : Prop :=
  ∀ fr ∈ m.frames, fr.entry_condition = none ∧ fr.exit_condition = none

/-- One advance step from `CheckExit(k, t)` with no exit condition or an exit
condition evaluating to Continue: enter the next phase, or finish when k is
the last phase. -/
theorem advance_exit_continue {m : MotionInterpolator CI T} {k t : Nat}
    {fr : ConditionedSpline CI T} {ci : CI}
    (hfr : m.frames[k]? = some fr) (hst : m.current_state = .CheckExit k t)
    (hc : ∀ c, fr.exit_condition = some c → c.evaluate ci t = .Continue)
    (step : Duration) :
    m.advance_by step ci = some { m with current_state :=
      if k < m.frames.length - 1 then .CheckEntry (k + 1) 0 else .Finished } := by
  unfold MotionInterpolator.advance_by
  rw [hst]
  simp only [hfr, Option.map_some']
  cases hec : fr.exit_condition with
  | none => rfl
  | some c =>
    simp only [Option.map_some']
    rw [hc c hec]

/-- Splitting an iterated advance into two runs. -/
theorem advanceN_add (m : MotionInterpolator CI T) (step : Duration) (ci : CI) (a b : Nat) :
    advanceN m step ci (a + b) = (advanceN m step ci a).bind (advanceN · step ci b) := by
  induction a generalizing m with
  | zero =>
    rw [Nat.zero_add]
    rfl
  | succ a ih =>
    rw [show a + 1 + b = (a + b) + 1 from by omega]
    show (m.advance_by step ci).bind (advanceN · step ci (a + b)) =
      ((m.advance_by step ci).bind (advanceN · step ci a)).bind (advanceN · step ci b)
    cases h : m.advance_by step ci with
    | none => rfl
    | some m1 =>
      rw [Option.some_bind, Option.some_bind]
      exact ih m1

/-- With a positive step, iterating advance from `InterpolateSpline(k, t)`
eventually reaches `CheckExit(k, 0)`; the fuel `d` bounds the remaining time. -/
theorem reach_check_exit (step : Nat) (ci : CI) (hstep : 0 < step) :
    ∀ (d : Nat) (m : MotionInterpolator CI T) (k t : Nat) (fr : ConditionedSpline CI T),
      m.frames[k]? = some fr → m.current_state = .InterpolateSpline k t →
      fr.spline.total_duration ≤ t + d →
      ∃ n, advanceN m step ci n = some { m with current_state := .CheckExit k 0 } := by
  intro d
  induction d with
  | zero =>
    intro m k t fr hfr hst hd
    have hge0 : fr.spline.total_duration ≤ t := by omega
    refine ⟨1, ?_⟩
    show (m.advance_by step ci).bind (advanceN · step ci 0) = _
    rw [advance_interp_ge hfr hst hge0, Option.some_bind]
    rfl
  | succ d ih =>
    intro m k t fr hfr hst hd
    rcases le_or_lt fr.spline.total_duration t with hge | hlt
    · refine ⟨1, ?_⟩
      show (m.advance_by step ci).bind (advanceN · step ci 0) = _
      rw [advance_interp_ge hfr hst hge, Option.some_bind]
      rfl
    · obtain ⟨n, hn⟩ := ih { m with current_state := .InterpolateSpline k (t + step) }
        k (t + step) fr hfr rfl (by omega)
      refine ⟨n + 1, ?_⟩
      show (m.advance_by step ci).bind (advanceN · step ci n) = _
      rw [advance_interp_lt hfr hst hlt step ci, Option.some_bind]
      exact hn

/-- With a positive step and no conditions anywhere, iterating advance from
`CheckEntry(k, t)` eventually reaches `Finished`; the fuel `gas` bounds the
number of remaining phases. -/
theorem reach_finished (step : Nat) (ci : CI) (hstep : 0 < step) :
    ∀ (gas : Nat) (m : MotionInterpolator CI T) (k t : Nat),
      k < m.frames.length → noConditions m →
      m.frames.length - k ≤ gas →
      m.current_state = .CheckEntry k t →
      ∃ n m', advanceN m step ci n = some m' ∧ m'.frames = m.frames ∧
        m'.current_state = .Finished := by
  intro gas
  induction gas with
  | zero =>
    intro m k t hk _ hgas _
    exfalso
    omega
  | succ gas ih =>
    intro m k t hk hnc hgas hst
    have hfr : m.frames[k]? = some (m.frames[k]) := List.getElem?_eq_getElem hk
    obtain ⟨hec, hxc⟩ := hnc (m.frames[k]) (List.getElem_mem hk)
    have h1 : m.advance_by step ci =
        some { m with current_state := .InterpolateSpline k 0 } :=
      advance_entry_continue hfr hst
        (fun c hc => absurd (hec ▸ hc) (fun hcc => Option.noConfusion hcc)) step
    obtain ⟨n2, h2⟩ := reach_check_exit step ci hstep ((m.frames[k]).spline.total_duration)
      { m with current_state := .InterpolateSpline k 0 } k 0 (m.frames[k]) hfr rfl
      (Nat.le_add_left _ _)
    have h3 : ({ m with current_state := State.CheckExit k 0 } :
        MotionInterpolator CI T).advance_by step ci =
        some { m with current_state :=
          if k < m.frames.length - 1 then .CheckEntry (k + 1) 0 else .Finished } :=
      advance_exit_continue (m := { m with current_state := State.CheckExit k 0 }) hfr rfl
        (fun c hc => absurd (hxc ▸ hc) (fun hcc => Option.noConfusion hcc)) step
    by_cases hlast : k < m.frames.length - 1
    · rw [if_pos hlast] at h3
      obtain ⟨n4, m', h4, hf4, hfin⟩ := ih { m with current_state := .CheckEntry (k + 1) 0 }
        (k + 1) 0 (by show k + 1 < m.frames.length; omega) hnc
        (by show m.frames.length - (k + 1) ≤ gas; omega) rfl
      refine ⟨1 + (n2 + (1 + n4)), m', ?_, hf4, hfin⟩
      rw [advanceN_add]
      have e1 : advanceN m step ci 1 = some { m with current_state := .InterpolateSpline k 0 } := by
        show (m.advance_by step ci).bind (advanceN · step ci 0) = _
        rw [h1, Option.some_bind]
        rfl
      rw [e1, Option.some_bind, advanceN_add, h2, Option.some_bind, advanceN_add]
      have e3 : advanceN ({ m with current_state := State.CheckExit k 0 } :
          MotionInterpolator CI T) step ci 1 =
          some { m with current_state := .CheckEntry (k + 1) 0 } := by
        show (({ m with current_state := State.CheckExit k 0 } :
          MotionInterpolator CI T).advance_by step ci).bind (advanceN · step ci 0) = _
        rw [h3, Option.some_bind]
        rfl
      rw [e3, Option.some_bind]
      exact h4
    · rw [if_neg hlast] at h3
      refine ⟨1 + (n2 + 1), { m with current_state := .Finished }, ?_, rfl, rfl⟩
      rw [advanceN_add]
      have e1 : advanceN m step ci 1 = some { m with current_state := .InterpolateSpline k 0 } := by
        show (m.advance_by step ci).bind (advanceN · step ci 0) = _
        rw [h1, Option.some_bind]
        rfl
      rw [e1, Option.some_bind, advanceN_add, h2, Option.some_bind]
      show (({ m with current_state := State.CheckExit k 0 } :
        MotionInterpolator CI T).advance_by step ci).bind (advanceN · step ci 0) = _
      rw [h3, Option.some_bind]
      rfl

/-- C4: on a non-empty, condition-free sequence, repeatedly advancing by any
fixed positive time step from the initial cursor eventually reaches the
`Finished` cursor, where `is_finished()` is true and `value()` is the last
phase's curve end value. -/
theorem C4_no_conditions_terminates [Interpolate T] (m : MotionInterpolator CI T)
    (step : Nat) (ci : CI) (hne : m.frames ≠ []) (hnc : noConditions m)
    (hstep : 0 < step) (hinit : m.current_state = .CheckEntry 0 0) :
    ∃ n m', advanceN m step ci n = some m' ∧ m'.current_state = .Finished ∧
      m'.is_finished = true ∧
      m'.value = some ((m.frames.getLast hne).spline.end_position) := by
  obtain ⟨n, m', hrun, hf, hfin⟩ := reach_finished step ci hstep m.frames.length m 0 0
    (List.length_pos.mpr hne) hnc (Nat.sub_le _ _) hinit
  refine ⟨n, m', hrun, hfin, ?_, ?_⟩
  · unfold MotionInterpolator.is_finished
    rw [hfin]
  · unfold MotionInterpolator.value
    rw [hfin]
    show m'.frames.getLast?.map (fun f => f.spline.end_position) = _
    rw [hf, List.getLast?_eq_getLast m.frames hne, Option.map_some']

/-- A one-phase condition-free machine with duration 3, start pose 0 and end
pose 1, at the initial cursor. -/
def mC4 : MotionInterpolator Unit ℚ :=
  { frames := [⟨none, ⟨0, [⟨1, 3⟩]⟩, none⟩], current_state := .CheckEntry 0 0 }

/-- C4 witness: advancing `mC4` by a fixed step of 1 eventually finishes with
value 1 (the last phase's end value). -/
theorem C4_witness :
    ∃ n m', advanceN mC4 1 () n = some m' ∧ m'.current_state = .Finished ∧
      m'.is_finished = true ∧ m'.value = some 1 :=
  C4_no_conditions_terminates mC4 1 () (List.cons_ne_nil _ _)
    (fun fr hfr => by
      rcases List.mem_singleton.mp hfr with rfl
      exact ⟨rfl, rfl⟩)
    Nat.one_pos rfl

end Hulk
